import Mathlib

/-!
Verification of the pants-docker-generator library: a shallow embedding of
the Dockerfile instruction model, stage and document rendering, the fluent
builder, the OCI label helper, the dockerignore renderer and the SLS preset,
together with proofs of the specified rendering properties.

Python strings are modelled as lists of characters (type Str below); Python
dicts of strings are modelled as insertion-ordered association lists whose
assignment operator updates the first matching key in place and otherwise
appends, exactly as CPython dicts behave.
-/

/-- Python strings, modelled as lists of characters. -/
abbrev Str := List Char

/-- Coerce a Lean string literal to the character-list model. -/
def str (s : String) : Str := s.data

/-- Python separator.join(parts): concatenates parts with the separator
between consecutive elements. -/
def joinSep (sep : Str) : List Str → Str
  | [] => []
  | [x] => x
  | x :: y :: t => x ++ sep ++ joinSep sep (y :: t)

/-- Rendering of a Python int via its decimal notation. -/
def intStr (i : Int) : Str := (toString i).data

/-- Split a character list at every newline character; the result always has
at least one (possibly empty) segment. -/
def splitNL : Str → List Str
  | [] => [[]]
  | c :: rest =>
    if c = '\n' then [] :: splitNL rest
    else (c :: (splitNL rest).headI) :: (splitNL rest).tail

/-- The lines of a text: splitting at newlines, where one trailing newline
terminates the last line rather than opening an empty one. -/
def linesOf (s : Str) : List Str :=
  if s.getLast? = some '\n' then (splitNL s).dropLast else splitNL s

/-- Python truthiness of an optional string: None and the empty string are
falsy. -/
def optTruthy : Option String → Bool
  | none => false
  | some s => !(s = "")

/-- The FROM instruction (class From in _directives.py). -/
structure From where
  image : String
  alias' : Option String
  platform : Option String
deriving DecidableEq, Repr

/-- Render a FROM instruction: FROM [--platform=p] image [AS alias], where
the optional parts are included when truthy (From.render). -/
def From.render (f : From) : Str :=
  joinSep (str " ")
    ((str "FROM" ::
      (match f.platform with
        | some p => if p = "" then [] else [str "--platform=" ++ p.data]
        | none => [])) ++
      [f.image.data] ++
      (match f.alias' with
        | some a => if a = "" then [] else [str "AS " ++ a.data]
        | none => []))

/-- The closed set of Dockerfile instructions (the Directive union in
_directives.py); the from_ constructor mirrors the standalone From class so
that a FROM can also occur as an ordinary directive. -/
inductive Directive where
  | comment (text : String)
  | blankLine
  | from_ (image : String) (alias' : Option String) (platform : Option String)
  | run (command : String)
  | copy (src dst : String) (from_stage chown : Option String)
  | add (src dst : String) (chown : Option String)
  | workdir (path : String)
  | user (user : String) (group : Option String)
  | expose (port : Int) (protocol : Option String)
  | entrypoint (args : List String)
  | cmd (args : List String)
  | arg (name : String) (default : Option String)
  | env (key value : String)
  | label (labels : List (String × String))
  | volume (paths : List String)
  | shell (args : List String)
  | healthCheck (command : String) (intervalSeconds timeoutSeconds startPeriodSeconds retries : Int)
  | healthCheckNone
deriving DecidableEq, Repr

/-- Double-quote one exec-form argument. -/
def quoteArg (a : String) : Str := '"' :: a.data ++ ['"']

/-- One line of the multi-entry LABEL form: six spaces, key="value", and a
line continuation on every line but the last (the loop body of
Label.render). -/
def labelLinesSrc (l : List (String × String)) : List Str :=
  l.enum.map (fun p =>
    str "      " ++ p.2.1.data ++ str "=\"" ++ p.2.2.data ++ str "\"" ++
      (if p.1 < l.length - 1 then str " \\" else []))

/-- Render a LABEL instruction (Label.render): empty map gives the empty
string, a single entry the one-line form, two or more the multi-line form. -/
def Label.render : List (String × String) → Str
  | [] => []
  | [(k, v)] => str "LABEL " ++ k.data ++ str "=\"" ++ v.data ++ str "\""
  | l => joinSep ['\n'] (str "LABEL \\" :: labelLinesSrc l)

/-- Render a single directive to its text (the render methods of
_directives.py). -/
def Directive.render : Directive → Str
  | .comment t => str "# " ++ t.data
  | .blankLine => []
  | .from_ i a p => From.render ⟨i, a, p⟩
  | .run c => str "RUN " ++ c.data
  | .copy src dst from_stage chown =>
    joinSep (str " ")
      ((str "COPY" ::
        (match from_stage with
          | some f => if f = "" then [] else [str "--from=" ++ f.data]
          | none => []) ++
        (match chown with
          | some c => if c = "" then [] else [str "--chown=" ++ c.data]
          | none => [])) ++ [src.data, dst.data])
  | .add src dst chown =>
    joinSep (str " ")
      ((str "ADD" ::
        (match chown with
          | some c => if c = "" then [] else [str "--chown=" ++ c.data]
          | none => [])) ++ [src.data, dst.data])
  | .workdir p => str "WORKDIR " ++ p.data
  | .user u g =>
    match g with
    | some gr => if gr = "" then str "USER " ++ u.data
                 else str "USER " ++ u.data ++ str ":" ++ gr.data
    | none => str "USER " ++ u.data
  | .expose port proto =>
    match proto with
    | some pr => if pr = "" then str "EXPOSE " ++ intStr port
                 else str "EXPOSE " ++ intStr port ++ str "/" ++ pr.data
    | none => str "EXPOSE " ++ intStr port
  | .entrypoint args =>
    str "ENTRYPOINT [" ++ joinSep (str ", ") (args.map quoteArg) ++ str "]"
  | .cmd args =>
    str "CMD [" ++ joinSep (str ", ") (args.map quoteArg) ++ str "]"
  | .arg n d =>
    match d with
    | some dv => str "ARG " ++ n.data ++ str "=" ++ dv.data
    | none => str "ARG " ++ n.data
  | .env k v => str "ENV " ++ k.data ++ str "=\"" ++ v.data ++ str "\""
  | .label l => Label.render l
  | .volume paths =>
    match paths with
    | [p] => str "VOLUME " ++ p.data
    | _ => str "VOLUME [" ++ joinSep (str ", ") (paths.map quoteArg) ++ str "]"
  | .shell args =>
    str "SHELL [" ++ joinSep (str ", ") (args.map quoteArg) ++ str "]"
  | .healthCheck c iv tm sp re =>
    str "HEALTHCHECK --interval=" ++ intStr iv ++ str "s --timeout=" ++
      intStr tm ++ str "s --start-period=" ++ intStr sp ++ str "s --retries=" ++
      intStr re ++ str " \\" ++ ['\n'] ++ str "  CMD " ++ c.data
  | .healthCheckNone => str "HEALTHCHECK NONE"

/-- A single stage of a multi-stage Dockerfile (_stage.py). -/
structure Stage where
  fromDirective : From
  directives : List Directive
deriving DecidableEq, Repr

/-- The alias accessor of a stage: the alias of its FROM instruction. -/
def Stage.alias' (s : Stage) : Option String := s.fromDirective.alias'

/-- Render a stage: the FROM line followed by each directive's rendering,
joined by newlines (Stage.render; every render result is non-None in the
source, so every directive contributes a line). -/
def Stage.render (s : Stage) : Str :=
  joinSep ['\n'] (s.fromDirective.render :: s.directives.map Directive.render)

/-- An immutable complete Dockerfile (_dockerfile.py). -/
structure Dockerfile where
  stages : List Stage
deriving DecidableEq, Repr

/-- The parts list built by the rendering loop of Dockerfile.render: each
stage's rendering, with an empty part inserted before every stage but the
first. -/
def Dockerfile.renderParts : List Stage → List Str
  | [] => []
  | [s] => [s.render]
  | s :: t => s.render :: [] :: Dockerfile.renderParts t

/-- Render the full Dockerfile (Dockerfile.render): join the parts with
newlines and append one final newline if the result does not already end
with one. -/
def Dockerfile.render (d : Dockerfile) : Str :=
  let result := joinSep ['\n'] (Dockerfile.renderParts d.stages)
  if result.getLast? = some '\n' then result else result ++ ['\n']

/-- Python dict assignment d[k] = v on an insertion-ordered association
list: the first entry with the key is updated in place, otherwise the pair
is appended at the end (CPython dict semantics; the lists this development
builds never hold a key twice). -/
def dinsert : List (String × String) → String → String → List (String × String)
  | [], k, v => [(k, v)]
  | p :: rest, k, v => if p.1 = k then (k, v) :: rest else p :: dinsert rest k v

/-- Python dict lookup d.get(k): the value at the first matching key. -/
def dlookup : List (String × String) → String → Option String
  | [], _ => none
  | p :: rest, k => if p.1 = k then some p.2 else dlookup rest k

/-- Python d.update(ext): assign every pair of ext into d, in order. -/
def dupdate (m : List (String × String)) (ext : List (String × String)) :
    List (String × String) :=
  ext.foldl (fun acc p => dinsert acc p.1 p.2) m

/-- Conditional dict assignment: labels[key] = value only when the value is
not None (the loop body of oci_labels). -/
def optIns (m : List (String × String)) (k : String) (v : Option String) :
    List (String × String) :=
  match v with
  | none => m
  | some x => dinsert m k x

/-- The well-known OCI annotation map of oci_labels: each of the nine fixed
keys is assigned, in source order, exactly when its field is not None. -/
def wellKnownLabels (title version vendor description url source licenses
    revision created : Option String) : List (String × String) :=
  optIns (optIns (optIns (optIns (optIns (optIns (optIns (optIns (optIns []
    "org.opencontainers.image.title" title)
    "org.opencontainers.image.version" version)
    "org.opencontainers.image.vendor" vendor)
    "org.opencontainers.image.description" description)
    "org.opencontainers.image.url" url)
    "org.opencontainers.image.source" source)
    "org.opencontainers.image.licenses" licenses)
    "org.opencontainers.image.revision" revision)
    "org.opencontainers.image.created" created

/-- Build a LABEL directive with the standard OCI annotation keys
(_labels.py oci_labels): only non-None fields are included, and the extra
overlay is merged last when it is truthy (not None and non-empty). -/
def oci_labels (title version vendor description url source licenses
    revision created : Option String)
    (extra : Option (List (String × String))) : Directive :=
  .label
    (match extra with
      | some e =>
        if e = [] then
          wellKnownLabels title version vendor description url source
            licenses revision created
        else
          dupdate (wellKnownLabels title version vendor description url
            source licenses revision created) e
      | none =>
        wellKnownLabels title version vendor description url source
          licenses revision created)

/-- The labels carried by a LABEL directive (empty for any other kind). -/
def labelsOf : Directive → List (String × String)
  | .label l => l
  | _ => []

/-- The mutable state of a DockerfileBuilder: finalized stages, the pending
FROM (if any) and the directives accumulated for the pending stage. -/
structure BuilderState where
  stages : List Stage
  currentFrom : Option From
  currentDirectives : List Directive
deriving DecidableEq, Repr

/-- The initial builder state (DockerfileBuilder.__init__). -/
def initState : BuilderState := ⟨[], none, []⟩

/-- Flush the pending stage into the stage list; a flush with no pending
FROM changes nothing (DockerfileBuilder._flush_stage). -/
def flushStage (s : BuilderState) : BuilderState :=
  match s.currentFrom with
  | none => s
  | some f => ⟨s.stages ++ [⟨f, s.currentDirectives⟩], none, []⟩

/-- The operations of the fluent DockerfileBuilder API, one per method. -/
inductive BuilderOp where
  | from_ (image : String) (alias' : Option String) (platform : Option String)
  | run (command : String)
  | copy (src dst : String) (from_stage chown : Option String)
  | add (src dst : String) (chown : Option String)
  | workdir (path : String)
  | user (user : String) (group : Option String)
  | expose (port : Int) (protocol : Option String)
  | entrypoint (args : List String)
  | cmd (args : List String)
  | arg (name : String) (default : Option String)
  | env (key value : String)
  | label (labels : List (String × String))
  | volume (paths : List String)
  | shell (args : List String)
  | healthcheck (command : String) (intervalSeconds timeoutSeconds startPeriodSeconds retries : Int)
  | healthcheck_none
  | comment (text : String)
  | blank
  | directive (d : Directive)
deriving DecidableEq, Repr

/-- Apply one builder method call to the builder state: from_ flushes the
pending stage and starts a new one; every other method appends one directive
to the pending buffer (methods of DockerfileBuilder). -/
def applyOp (s : BuilderState) : BuilderOp → BuilderState
  | .from_ i a p =>
    let s' := flushStage s
    ⟨s'.stages, some ⟨i, a, p⟩, s'.currentDirectives⟩
  | .run c => { s with currentDirectives := s.currentDirectives ++ [.run c] }
  | .copy src dst f c => { s with currentDirectives := s.currentDirectives ++ [.copy src dst f c] }
  | .add src dst c => { s with currentDirectives := s.currentDirectives ++ [.add src dst c] }
  | .workdir p => { s with currentDirectives := s.currentDirectives ++ [.workdir p] }
  | .user u g => { s with currentDirectives := s.currentDirectives ++ [.user u g] }
  | .expose p pr => { s with currentDirectives := s.currentDirectives ++ [.expose p pr] }
  | .entrypoint a => { s with currentDirectives := s.currentDirectives ++ [.entrypoint a] }
  | .cmd a => { s with currentDirectives := s.currentDirectives ++ [.cmd a] }
  | .arg n d => { s with currentDirectives := s.currentDirectives ++ [.arg n d] }
  | .env k v => { s with currentDirectives := s.currentDirectives ++ [.env k v] }
  | .label l => { s with currentDirectives := s.currentDirectives ++ [.label l] }
  | .volume p => { s with currentDirectives := s.currentDirectives ++ [.volume p] }
  | .shell a => { s with currentDirectives := s.currentDirectives ++ [.shell a] }
  | .healthcheck c iv tm sp re => { s with currentDirectives := s.currentDirectives ++ [.healthCheck c iv tm sp re] }
  | .healthcheck_none => { s with currentDirectives := s.currentDirectives ++ [.healthCheckNone] }
  | .comment t => { s with currentDirectives := s.currentDirectives ++ [.comment t] }
  | .blank => { s with currentDirectives := s.currentDirectives ++ [.blankLine] }
  | .directive d => { s with currentDirectives := s.currentDirectives ++ [d] }

/-- Apply a sequence of builder method calls in order. -/
def applyOps (s : BuilderState) (ops : List BuilderOp) : BuilderState :=
  ops.foldl applyOp s

/-- Finalize the builder (DockerfileBuilder.build): one last flush, then an
error when no stage was ever started, otherwise the immutable Dockerfile. -/
def build (s : BuilderState) : Except String Dockerfile :=
  let s' := flushStage s
  if s'.stages = [] then .error "Dockerfile must have at least one FROM stage"
  else .ok ⟨s'.stages⟩

/-- Whether an Except value is a success. -/
def exceptOk {ε α : Type} : Except ε α → Bool
  | .ok _ => true
  | .error _ => false

/-- Whether a builder operation is the stage-starting from_ call. -/
def isFromOp : BuilderOp → Bool
  | .from_ .. => true
  | _ => false

/-- The directive a non-from_ builder operation appends (none for from_). -/
def dirOf : BuilderOp → Option Directive
  | .from_ .. => none
  | .run c => some (.run c)
  | .copy src dst f c => some (.copy src dst f c)
  | .add src dst c => some (.add src dst c)
  | .workdir p => some (.workdir p)
  | .user u g => some (.user u g)
  | .expose p pr => some (.expose p pr)
  | .entrypoint a => some (.entrypoint a)
  | .cmd a => some (.cmd a)
  | .arg n d => some (.arg n d)
  | .env k v => some (.env k v)
  | .label l => some (.label l)
  | .volume p => some (.volume p)
  | .shell a => some (.shell a)
  | .healthcheck c iv tm sp re => some (.healthCheck c iv tm sp re)
  | .healthcheck_none => some .healthCheckNone
  | .comment t => some (.comment t)
  | .blank => some .blankLine
  | .directive d => some d

/-- Configuration for .dockerignore generation (_dockerignore.py). -/
structure DockerignoreConfig where
  ignore_all : Bool
  allow_patterns : List String
  deny_patterns : List String
  comment : Option String
deriving DecidableEq, Repr

/-- Render a .dockerignore (DockerignoreConfig.render): optional truthy
comment line, deny patterns verbatim, a blanket ** when ignore_all is set,
allow patterns with a ! mark, and a final empty entry so the joined text
ends with a newline whenever anything precedes it. -/
def DockerignoreConfig.render (cfg : DockerignoreConfig) : Str :=
  joinSep ['\n']
    (((match cfg.comment with
        | some c => if c = "" then [] else [str "# " ++ c.data]
        | none => []) ++
      cfg.deny_patterns.map String.data ++
      (if cfg.ignore_all then [str "**"] else []) ++
      cfg.allow_patterns.map (fun p => '!' :: p.data)) ++ [[]])

/-- Python x or d on an optional int: d when x is None or zero. -/
def orInt (o : Option Int) (d : Int) : Int :=
  match o with
  | none => d
  | some x => if x = 0 then d else x

/-- The RUN command that installs the hook init system in the SLS preset. -/
def hookRunCmd : String :=
  "chmod +x service/bin/entrypoint.sh && \\\n    mkdir -p hooks/pre-configure.d hooks/configure.d \\\n    hooks/pre-startup.d hooks/startup.d hooks/post-startup.d \\\n    hooks/pre-shutdown.d hooks/shutdown.d"

/-- The label map assembled by sls_dockerfile: four well-known entries
overlaid with the extra labels when those are truthy. -/
def slsLabels (product_name product_version product_group product_type : String)
    (labels : Option (List (String × String))) : List (String × String) :=
  let base := [("org.opencontainers.image.title", product_name),
    ("org.opencontainers.image.version", product_version),
    ("org.opencontainers.image.vendor", product_group),
    ("com.palantir.sls.product-type", product_type)]
  match labels with
  | some l => if l = [] then base else dupdate base l
  | none => base

/-- The builder method calls sls_dockerfile performs after its initial
from_ call, in source order. -/
def slsBody (product_name product_version product_group dist_name
    tarball_name install_path product_type : String)
    (health_check_interval health_check_timeout health_check_start_period
      health_check_retries : Option Int)
    (use_hook_init : Bool) (expose_ports : List Int)
    (labels : Option (List (String × String))) : List BuilderOp :=
  [.blank,
   .label (slsLabels product_name product_version product_group product_type labels),
   .blank,
   .add tarball_name (install_path ++ "/") none,
   .workdir (install_path ++ "/" ++ dist_name),
   .blank,
   .run "mkdir -p var/data/tmp var/log var/run var/conf var/state",
   .blank] ++
  (if use_hook_init then
    [.comment "Hook init system",
     .copy "hooks/entrypoint.sh" "service/bin/entrypoint.sh" none none,
     .copy "hooks/hooks.sh" "service/lib/hooks.sh" none none,
     .run hookRunCmd,
     .blank]
   else []) ++
  expose_ports.map (fun p => .expose p none) ++
  (if expose_ports = [] then [] else [.blank]) ++
  (if health_check_interval.isSome || health_check_timeout.isSome then
    [.healthcheck "service/monitoring/bin/check.sh || exit 1"
      (orInt health_check_interval 10) (orInt health_check_timeout 5)
      (orInt health_check_start_period 30) (orInt health_check_retries 3),
     .blank]
   else []) ++
  [(if use_hook_init then .entrypoint ["service/bin/entrypoint.sh"]
    else .entrypoint ["service/bin/init.sh", "start"]),
   .blank]

/-- Generate the SLS preset Dockerfile (_presets.py sls_dockerfile) by
running the builder over the preset's method calls. -/
def sls_dockerfile (base_image product_name product_version product_group
    dist_name tarball_name install_path product_type : String)
    (health_check_interval health_check_timeout health_check_start_period
      health_check_retries : Option Int)
    (use_hook_init : Bool) (expose_ports : List Int)
    (labels : Option (List (String × String))) : Except String Dockerfile :=
  build (applyOps initState
    (.from_ base_image none none ::
      slsBody product_name product_version product_group dist_name
        tarball_name install_path product_type health_check_interval
        health_check_timeout health_check_start_period health_check_retries
        use_hook_init expose_ports labels))

/-- The directives of the single stage the SLS preset builds. -/
def slsDirs (product_name product_version product_group dist_name
    tarball_name install_path product_type : String)
    (health_check_interval health_check_timeout health_check_start_period
      health_check_retries : Option Int)
    (use_hook_init : Bool) (expose_ports : List Int)
    (labels : Option (List (String × String))) : List Directive :=
  (slsBody product_name product_version product_group dist_name tarball_name
    install_path product_type health_check_interval health_check_timeout
    health_check_start_period health_check_retries use_hook_init expose_ports
    labels).filterMap dirOf

/-- Whether a directive is a HEALTHCHECK with parameters. -/
def isHealthCheckDir : Directive → Bool
  | .healthCheck .. => true
  | _ => false

/-- Whether a directive is an ENTRYPOINT. -/
def isEntrypointDir : Directive → Bool
  | .entrypoint .. => true
  | _ => false

/-- Whether a directive is a COPY. -/
def isCopyDir : Directive → Bool
  | .copy .. => true
  | _ => false

theorem joinSep_cons_cons (sep x y : Str) (t : List Str) :
    joinSep sep (x :: y :: t) = x ++ sep ++ joinSep sep (y :: t) := rfl

theorem splitNL_ne_nil (s : Str) : splitNL s ≠ [] := by
  cases s with
  | nil => simp [splitNL]
  | cons c rest => simp only [splitNL]; split <;> simp

theorem splitNL_cons_ne (c : Char) (b : Str) (h : ¬ c = '\n') :
    splitNL (c :: b) = (c :: (splitNL b).headI) :: (splitNL b).tail := by
  simp [splitNL, h]

theorem splitNL_append_nl (a b : Str) :
    splitNL (a ++ '\n' :: b) = splitNL a ++ splitNL b := by
  induction a with
  | nil => simp [splitNL]
  | cons c a ih =>
    by_cases hc : c = '\n'
    · subst hc
      simp [splitNL, ih]
    · obtain ⟨h, t, eq⟩ : ∃ h t, splitNL a = h :: t := by
        cases hsa : splitNL a with
        | nil => exact absurd hsa (splitNL_ne_nil a)
        | cons h t => exact ⟨h, t, rfl⟩
      simp [splitNL_cons_ne c _ hc, ih, eq]

theorem splitNL_no_nl (s : Str) (h : ∀ c ∈ s, ¬ c = '\n') : splitNL s = [s] := by
  induction s with
  | nil => rfl
  | cons c rest ih =>
    have hc : ¬ c = '\n' := h c (by simp)
    have := ih (fun x hx => h x (by simp [hx]))
    simp [splitNL_cons_ne c _ hc, this]

theorem getLast?_append_right {α : Type} (a b : List α) (h : b ≠ []) :
    (a ++ b).getLast? = b.getLast? := by
  rw [List.getLast?_append]
  obtain ⟨x, hx⟩ := Option.isSome_iff_exists.mp (List.getLast?_isSome.mpr h)
  simp [hx]

theorem getLast?_some_concat (s : Str) (c : Char) (h : s.getLast? = some c) :
    ∃ a, s = a ++ [c] := List.getLast?_eq_some_iff.mp h

theorem splitNL_count_pos_of_ends (s : Str) (h : s.getLast? = some '\n') :
    0 < (splitNL s).count ([] : Str) := by
  obtain ⟨a, rfl⟩ := getLast?_some_concat s '\n' h
  have : splitNL (a ++ '\n' :: []) = splitNL a ++ [[]] := splitNL_append_nl a []
  simp only [this, List.count_append]
  simp [List.count_cons]

theorem count_zero_not_ends (s : Str) (h : (splitNL s).count ([] : Str) = 0) :
    s ≠ [] ∧ ¬ s.getLast? = some '\n' := by
  constructor
  · rintro rfl
    simp [splitNL] at h
  · intro hend
    have := splitNL_count_pos_of_ends s hend
    omega

theorem joinSep_head_ne_nil (sep x : Str) (xs : List Str) (hx : x ≠ []) :
    joinSep sep (x :: xs) ≠ [] := by
  cases xs with
  | nil => exact hx
  | cons y t => simp [joinSep_cons_cons, hx]

theorem getLast?_joinSep (sep : Str) (L : List Str) (x : Str)
    (hL : L.getLast? = some x) (hx : x ≠ []) :
    (joinSep sep L).getLast? = x.getLast? := by
  induction L with
  | nil => simp at hL
  | cons h t ih =>
    cases t with
    | nil =>
      simp only [List.getLast?_singleton, Option.some.injEq] at hL
      subst hL; rfl
    | cons y tt =>
      rw [List.getLast?_cons_cons] at hL
      have hrec := ih hL
      have hne : joinSep sep (y :: tt) ≠ [] := by
        intro hnil
        rw [hnil] at hrec
        have : x.getLast? = none := hrec.symm
        cases x with
        | nil => exact hx rfl
        | cons a b => simp [List.getLast?_eq_getLast] at this
      rw [joinSep_cons_cons, List.append_assoc,
        getLast?_append_right _ _ (by simp [hne]), getLast?_append_right _ _ hne, hrec]

theorem splitNL_joinSep_nl (L : List Str) (hL : L ≠ [])
    (h : ∀ l ∈ L, ∀ c ∈ l, ¬ c = '\n') : splitNL (joinSep ['\n'] L) = L := by
  induction L with
  | nil => exact absurd rfl hL
  | cons x t ih =>
    cases t with
    | nil => simpa [joinSep] using splitNL_no_nl x (h x (by simp))
    | cons y tt =>
      have hx : splitNL x = [x] := splitNL_no_nl x (h x (by simp))
      have : x ++ ['\n'] ++ joinSep ['\n'] (y :: tt) = x ++ '\n' :: joinSep ['\n'] (y :: tt) := by
        simp
      rw [joinSep_cons_cons, this, splitNL_append_nl, hx,
        ih (by simp) (fun l hl => h l (by simp [hl]))]
      rfl

theorem renderParts_cons (y : Stage) (tt : List Stage) :
    ∃ rs, Dockerfile.renderParts (y :: tt) = y.render :: rs := by
  cases tt <;> exact ⟨_, rfl⟩

theorem renderParts_getLast? (stages : List Stage) (st : Stage)
    (h : stages.getLast? = some st) :
    (Dockerfile.renderParts stages).getLast? = some st.render := by
  induction stages with
  | nil => simp at h
  | cons s t ih =>
    cases t with
    | nil =>
      simp only [List.getLast?_singleton, Option.some.injEq] at h
      subst h; rfl
    | cons y tt =>
      rw [List.getLast?_cons_cons] at h
      have hrec := ih h
      obtain ⟨rs, hrs⟩ := renderParts_cons y tt
      show (s.render :: [] :: Dockerfile.renderParts (y :: tt)).getLast? = _
      rw [List.getLast?_cons_cons, hrs, List.getLast?_cons_cons, ← hrs]
      exact hrec

theorem joinSep_renderParts (stages : List Stage) :
    joinSep ['\n'] (Dockerfile.renderParts stages) =
      joinSep ['\n', '\n'] (stages.map Stage.render) := by
  induction stages with
  | nil => rfl
  | cons s t ih =>
    cases t with
    | nil => rfl
    | cons y tt =>
      obtain ⟨rs, hrs⟩ := renderParts_cons y tt
      show joinSep ['\n'] (s.render :: [] :: Dockerfile.renderParts (y :: tt)) = _
      rw [joinSep_cons_cons, hrs, joinSep_cons_cons, ← hrs, ih]
      show _ = Stage.render s ++ ['\n', '\n'] ++ joinSep ['\n', '\n'] (List.map Stage.render (y :: tt))
      simp

theorem count_nil_splitNL_joinSep2 (L : List Str) (hL : L ≠ []) :
    (splitNL (joinSep ['\n', '\n'] L)).count ([] : Str) =
      (L.map (fun l => (splitNL l).count ([] : Str))).sum + (L.length - 1) := by
  induction L with
  | nil => exact absurd rfl hL
  | cons x t ih =>
    cases t with
    | nil => simp [joinSep]
    | cons y tt =>
      have hx : x ++ ['\n', '\n'] ++ joinSep ['\n', '\n'] (y :: tt) =
          x ++ '\n' :: '\n' :: joinSep ['\n', '\n'] (y :: tt) := by simp
      rw [joinSep_cons_cons, hx, splitNL_append_nl]
      have h2 : splitNL ('\n' :: joinSep ['\n', '\n'] (y :: tt)) =
          [] :: splitNL (joinSep ['\n', '\n'] (y :: tt)) := by simp [splitNL]
      rw [h2, List.count_append, List.count_cons_self, ih (by simp)]
      have : (y :: tt).length - 1 + 1 = (y :: tt).length := by simp
      simp only [List.map_cons, List.sum_cons, List.length_cons]
      omega

theorem applyOps_append (s : BuilderState) (a b : List BuilderOp) :
    applyOps s (a ++ b) = applyOps (applyOps s a) b :=
  List.foldl_append _ _ a b

theorem applyOp_nonFrom (op : BuilderOp) (h : isFromOp op = false) (s : BuilderState) :
    applyOp s op = ⟨s.stages, s.currentFrom, s.currentDirectives ++ (dirOf op).toList⟩ := by
  cases op <;> simp_all [applyOp, dirOf, isFromOp]

theorem applyOps_nonFrom (ops : List BuilderOp)
    (h : ops.all (fun o => !isFromOp o) = true) (s : BuilderState) :
    applyOps s ops = ⟨s.stages, s.currentFrom, s.currentDirectives ++ ops.filterMap dirOf⟩ := by
  induction ops generalizing s with
  | nil => simp [applyOps]
  | cons op t ih =>
    rw [List.all_cons, Bool.and_eq_true] at h
    have hop : isFromOp op = false := by
      cases hf : isFromOp op
      · rfl
      · rw [hf] at h; simp at h
    show applyOps (applyOp s op) t = _
    rw [ih h.2, applyOp_nonFrom op hop]
    cases hd : dirOf op <;> simp [List.filterMap_cons, hd]

/-- Whether a builder state already carries a stage or a pending FROM. -/
def stateHasFrom (s : BuilderState) : Bool := !s.stages.isEmpty || s.currentFrom.isSome

theorem stateHasFrom_applyOp (s : BuilderState) (op : BuilderOp) :
    stateHasFrom (applyOp s op) = (stateHasFrom s || isFromOp op) := by
  cases op
  case from_ i a p =>
    cases hc : s.currentFrom <;> simp [applyOp, stateHasFrom, isFromOp, flushStage, hc]
  all_goals simp [applyOp, stateHasFrom, isFromOp]

theorem stateHasFrom_applyOps (s : BuilderState) (ops : List BuilderOp) :
    stateHasFrom (applyOps s ops) = (stateHasFrom s || ops.any isFromOp) := by
  induction ops generalizing s with
  | nil => simp [applyOps]
  | cons op t ih =>
    show stateHasFrom (applyOps (applyOp s op) t) = _
    rw [ih, stateHasFrom_applyOp]
    simp [Bool.or_assoc]

theorem exceptOk_build (s : BuilderState) : exceptOk (build s) = stateHasFrom s := by
  unfold build
  cases hc : s.currentFrom with
  | none =>
    by_cases hs : s.stages = [] <;>
      simp [flushStage, hc, hs, exceptOk, stateHasFrom, List.isEmpty_iff]
  | some f =>
    simp [flushStage, hc, exceptOk, stateHasFrom]

theorem build_from_body (i : String) (a p : Option String) (body : List BuilderOp)
    (h : body.all (fun o => !isFromOp o) = true) :
    build (applyOps initState (.from_ i a p :: body)) =
      .ok ⟨[⟨⟨i, a, p⟩, body.filterMap dirOf⟩]⟩ := by
  show build (applyOps (applyOp initState (.from_ i a p)) body) = _
  have h1 : applyOp initState (.from_ i a p) = ⟨[], some ⟨i, a, p⟩, []⟩ := rfl
  rw [h1, applyOps_nonFrom body h]
  simp [build, flushStage]

theorem dlookup_dinsert_self (m : List (String × String)) (k : String) (v : String) :
    dlookup (dinsert m k v) k = some v := by
  induction m with
  | nil => simp [dinsert, dlookup]
  | cons p rest ih =>
    by_cases hp : p.1 = k
    · simp [dinsert, hp, dlookup]
    · simp [dinsert, hp, dlookup, ih]

theorem dlookup_dinsert_ne (m : List (String × String)) (k k' : String) (v : String)
    (h : ¬ k' = k) : dlookup (dinsert m k v) k' = dlookup m k' := by
  have h' : ¬ k = k' := fun hh => h hh.symm
  induction m with
  | nil => simp [dinsert, dlookup, h']
  | cons p rest ih =>
    by_cases hp : p.1 = k
    · have h2 : ¬ p.1 = k' := by rw [hp]; exact h'
      simp [dinsert, hp, dlookup, h', h2]
    · simp [dinsert, hp, dlookup, ih]

theorem dlookup_dupdate_notmem (ext : List (String × String)) (m : List (String × String))
    (k : String) (h : ¬ k ∈ ext.map Prod.fst) :
    dlookup (dupdate m ext) k = dlookup m k := by
  induction ext generalizing m with
  | nil => rfl
  | cons p rest ih =>
    simp only [List.map_cons, List.mem_cons, not_or] at h
    show dlookup (dupdate (dinsert m p.1 p.2) rest) k = _
    rw [ih _ h.2, dlookup_dinsert_ne _ _ _ _ h.1]

theorem dlookup_dupdate_mem (ext : List (String × String)) (m : List (String × String))
    (k : String) (v : String) (hnd : (ext.map Prod.fst).Nodup) (hmem : (k, v) ∈ ext) :
    dlookup (dupdate m ext) k = some v := by
  induction ext generalizing m with
  | nil => simp at hmem
  | cons p rest ih =>
    simp only [List.map_cons, List.nodup_cons] at hnd
    rcases List.mem_cons.mp hmem with heq | hrest
    · have hp1 : p.1 = k := by rw [← heq]
      have hp2 : p.2 = v := by rw [← heq]
      have hk : ¬ k ∈ rest.map Prod.fst := by rw [← hp1]; exact hnd.1
      show dlookup (dupdate (dinsert m p.1 p.2) rest) k = _
      rw [dlookup_dupdate_notmem rest _ k hk, hp1, hp2, dlookup_dinsert_self]
    · show dlookup (dupdate (dinsert m p.1 p.2) rest) k = _
      exact ih _ hnd.2 hrest

theorem dlookup_optIns_ne (m : List (String × String)) (k k' : String)
    (v : Option String) (h : ¬ k' = k) :
    dlookup (optIns m k v) k' = dlookup m k' := by
  cases v with
  | none => rfl
  | some x => exact dlookup_dinsert_ne m k k' x h

theorem dlookup_optIns_self (m : List (String × String)) (k : String) (v : Option String) :
    dlookup (optIns m k v) k = v.or (dlookup m k) := by
  cases v with
  | none => rfl
  | some x => simp [optIns, dlookup_dinsert_self]

theorem stageRender_ne_nil (s : Stage) : s.render ≠ [] := by
  unfold Stage.render
  apply joinSep_head_ne_nil
  unfold From.render
  show joinSep (str " ") (str "FROM" :: _) ≠ []
  apply joinSep_head_ne_nil
  simp [str]

theorem slsBody_nonFrom (product_name product_version product_group dist_name
    tarball_name install_path product_type : String)
    (hcI hcT hcS hcR : Option Int) (use_hook_init : Bool)
    (expose_ports : List Int) (labels : Option (List (String × String))) :
    (slsBody product_name product_version product_group dist_name tarball_name
      install_path product_type hcI hcT hcS hcR use_hook_init expose_ports
      labels).all (fun o => !isFromOp o) = true := by
  by_cases h1 : use_hook_init = true <;>
    by_cases h2 : expose_ports = [] <;>
      by_cases h3 : (hcI.isSome || hcT.isSome) = true <;>
        simp [slsBody, h1, h2, h3, isFromOp, List.all_append, List.all_map,
          Function.comp, List.all_eq_true]

theorem sls_eq (base_image product_name product_version product_group dist_name
    tarball_name install_path product_type : String)
    (hcI hcT hcS hcR : Option Int) (use_hook_init : Bool)
    (expose_ports : List Int) (labels : Option (List (String × String))) :
    sls_dockerfile base_image product_name product_version product_group
      dist_name tarball_name install_path product_type hcI hcT hcS hcR
      use_hook_init expose_ports labels =
      .ok ⟨[⟨⟨base_image, none, none⟩,
        slsDirs product_name product_version product_group dist_name
          tarball_name install_path product_type hcI hcT hcS hcR
          use_hook_init expose_ports labels⟩]⟩ := by
  unfold sls_dockerfile slsDirs
  exact build_from_body base_image none none _
    (slsBody_nonFrom product_name product_version product_group dist_name
      tarball_name install_path product_type hcI hcT hcS hcR use_hook_init
      expose_ports labels)

theorem enumFrom_last_split {α β : Type} (f g : α → β) (l : List α) :
    ∀ (n : Nat) (a : α), l.getLast? = some a →
      (List.enumFrom n l).map
          (fun p => if p.1 < n + l.length - 1 then f p.2 else g p.2) =
        l.dropLast.map f ++ [g a] := by
  induction l with
  | nil => intro n a h; simp at h
  | cons x t ih =>
    intro n a h
    cases t with
    | nil =>
      simp only [List.getLast?_singleton, Option.some.injEq] at h
      subst h
      simp [List.enumFrom]
    | cons y tt =>
      rw [List.getLast?_cons_cons] at h
      have hlen : n + (x :: y :: tt).length - 1 = (n + 1) + (y :: tt).length - 1 := by
        simp only [List.length_cons]
        omega
      have hstep : List.enumFrom n (x :: y :: tt) =
          (n, x) :: List.enumFrom (n + 1) (y :: tt) := rfl
      rw [hstep, List.map_cons]
      simp only [hlen]
      rw [ih (n + 1) a h]
      have hfirst : n < (n + 1) + (y :: tt).length - 1 := by
        simp only [List.length_cons]
        omega
      rw [if_pos hfirst]
      rfl

/-- The shape of one multi-entry LABEL line: six spaces, the quoted pair and
a continuation marker exactly when the line is not the last. -/
def labelLine (cont : Bool) (kv : String × String) : Str :=
  str "      " ++ kv.1.data ++ str "=\"" ++ kv.2.data ++ str "\"" ++
    (if cont then str " \\" else [])

theorem labelLinesSrc_split (l : List (String × String)) (a : String × String)
    (h : l.getLast? = some a) :
    labelLinesSrc l = l.dropLast.map (labelLine true) ++ [labelLine false a] := by
  have key := enumFrom_last_split (labelLine true) (labelLine false) l 0 a h
  simp only [Nat.zero_add] at key
  unfold labelLinesSrc
  rw [show l.enum = List.enumFrom 0 l from rfl, ← key]
  apply List.map_congr_left
  intro p _
  by_cases hc : p.1 < l.length - 1 <;> simp [hc, labelLine]

theorem labelLine_true_last (kv : String × String) :
    (labelLine true kv).getLast? = some '\\' := by
  unfold labelLine
  rw [if_pos rfl, getLast?_append_right _ (str " \\") (by simp [str])]
  rfl

theorem labelLine_false_last (kv : String × String) :
    (labelLine false kv).getLast? = some '"' := by
  unfold labelLine
  rw [if_neg (by simp), List.append_nil,
    getLast?_append_right _ (str "\"") (by simp [str])]
  rfl

/-- C2 counterexample: contrary to the claim, USER with group set to the
empty string renders exactly like USER with no group at all (the source
tests truthiness, not None-ness), and in particular not as USER app: with a
trailing colon. -/
theorem c2_user_empty_group_counterexample :
    Directive.render (.user "app" (some "")) = str "USER app" ∧
    Directive.render (.user "app" (some "")) = Directive.render (.user "app" none) ∧
    ¬ Directive.render (.user "app" (some "")) = str "USER app:" := by
  refine ⟨rfl, rfl, by decide⟩

/-- C2 (amended): every renderer with an optional string field tests it for
truthiness, so a field set to the empty string renders exactly like an
unset one: User's group, From's alias and platform (each independently,
whatever the other field holds), Copy's from_stage and chown (each
independently), Add's chown and Expose's protocol. The only directive whose
renderer distinguishes None from the empty string is Arg, whose rendering
with a default (even an empty default) always differs from its rendering
without one. -/
theorem c2_unset_vs_empty_string (u im src dst n d : String)
    (oa op of oc : Option String) (port : Int) :
    Directive.render (.user u (some "")) = Directive.render (.user u none) ∧
    Directive.render (.from_ im oa (some "")) =
      Directive.render (.from_ im oa none) ∧
    Directive.render (.from_ im (some "") op) =
      Directive.render (.from_ im none op) ∧
    Directive.render (.copy src dst (some "") oc) =
      Directive.render (.copy src dst none oc) ∧
    Directive.render (.copy src dst of (some "")) =
      Directive.render (.copy src dst of none) ∧
    Directive.render (.add src dst (some "")) =
      Directive.render (.add src dst none) ∧
    Directive.render (.expose port (some "")) =
      Directive.render (.expose port none) ∧
    ¬ Directive.render (.arg n (some d)) = Directive.render (.arg n none) := by
  refine ⟨rfl, rfl, rfl, rfl, rfl, rfl, rfl, ?_⟩
  intro hcontra
  have hlen := congrArg List.length hcontra
  simp [Directive.render, str, List.length_append] at hlen

/-- C4: finalizing the builder succeeds exactly when some from_ call
occurred among the operations applied to it; every non-from_ operation is a
total state transformer in this model, so the missing-FROM check in build
is the only failure point of the core. -/
theorem c4_build_ok_iff_from (ops : List BuilderOp) :
    exceptOk (build (applyOps initState ops)) = ops.any isFromOp := by
  rw [exceptOk_build, stateHasFrom_applyOps]
  rfl

/-- C5: LABEL rendering has three forms. Zero entries give the empty
string; one entry gives the single-line form; N at least 2 entries give the
multi-line form whose header is LABEL followed by a continuation marker and
whose body has one indented key="value" line per entry in insertion order,
with exactly N minus 1 body lines carrying the continuation marker (every
body line but the last). -/
theorem c5_label_render_forms (l : List (String × String)) :
    (l = [] → Label.render l = []) ∧
    (∀ k v, l = [(k, v)] → Label.render l =
      str "LABEL " ++ k.data ++ str "=\"" ++ v.data ++ str "\"") ∧
    (2 ≤ l.length → ∃ last, l.getLast? = some last ∧
      Label.render l = joinSep ['\n'] (str "LABEL \\" ::
        (l.dropLast.map (labelLine true) ++ [labelLine false last])) ∧
      (l.dropLast.map (labelLine true) ++ [labelLine false last]).countP
          (fun s => s.getLast? == some '\\') = l.length - 1) := by
  refine ⟨?_, ?_, ?_⟩
  · rintro rfl; rfl
  · rintro k v rfl; rfl
  · intro hlen
    cases l with
    | nil => simp at hlen
    | cons x t =>
      cases t with
      | nil => simp at hlen
      | cons y tt =>
        obtain ⟨last, hlast⟩ : ∃ la, (x :: y :: tt).getLast? = some la :=
          ⟨_, List.getLast?_eq_getLast _ (by simp)⟩
        refine ⟨last, hlast, ?_, ?_⟩
        · rw [show Label.render (x :: y :: tt) =
            joinSep ['\n'] (str "LABEL \\" :: labelLinesSrc (x :: y :: tt)) from rfl]
          rw [labelLinesSrc_split _ last hlast]
        · rw [List.countP_append]
          have h1 : ((x :: y :: tt).dropLast.map (labelLine true)).countP
              (fun s => s.getLast? == some '\\') =
              ((x :: y :: tt).dropLast.map (labelLine true)).length := by
            apply List.countP_eq_length.mpr
            intro a ha
            obtain ⟨kv, _, rfl⟩ := List.mem_map.mp ha
            simp [labelLine_true_last kv]
          have h2 : ([labelLine false last]).countP
              (fun s => s.getLast? == some '\\') = 0 := by
            simp [List.countP_cons, labelLine_false_last]
          rw [h1, h2, List.length_map, List.length_dropLast]
          omega

/-- C3 counterexample: a document whose last stage rendering already ends
with a newline (two trailing blank-line directives) renders with two
trailing newline characters, so the output does not end with exactly one
trailing newline. -/
theorem c3_two_trailing_newlines_counterexample :
    Dockerfile.render ⟨[⟨⟨"x", none, none⟩, [.blankLine, .blankLine]⟩]⟩ =
      str "FROM x" ++ ['\n', '\n'] ∧
    (Dockerfile.render ⟨[⟨⟨"x", none, none⟩, [.blankLine, .blankLine]⟩]⟩).getLast? =
      some '\n' ∧
    (Dockerfile.render
        ⟨[⟨⟨"x", none, none⟩, [.blankLine, .blankLine]⟩]⟩).dropLast.getLast? =
      some '\n' := by
  decide

/-- C3 (amended): Document rendering always ends with a newline; it ends
with exactly one trailing newline whenever the last stage's own rendering
does not already end with a newline (the appended newline is then the only
one), while a stage rendering that already ends in newlines is kept
unchanged, so any extra trailing newlines it carries survive. -/
theorem c3_trailing_newline (stages : List Stage) :
    (Dockerfile.render ⟨stages⟩).getLast? = some '\n' ∧
    (∀ last, stages.getLast? = some last →
      ¬ last.render.getLast? = some '\n' →
      Dockerfile.render ⟨stages⟩ =
        joinSep ['\n'] (Dockerfile.renderParts stages) ++ ['\n'] ∧
      ¬ (Dockerfile.render ⟨stages⟩).dropLast.getLast? = some '\n') ∧
    (∀ last, stages.getLast? = some last →
      last.render.getLast? = some '\n' →
      Dockerfile.render ⟨stages⟩ =
        joinSep ['\n'] (Dockerfile.renderParts stages)) := by
  have hdef : Dockerfile.render ⟨stages⟩ =
      (if (joinSep ['\n'] (Dockerfile.renderParts stages)).getLast? = some '\n'
       then joinSep ['\n'] (Dockerfile.renderParts stages)
       else joinSep ['\n'] (Dockerfile.renderParts stages) ++ ['\n']) := rfl
  refine ⟨?_, ?_, ?_⟩
  · rw [hdef]
    by_cases hr : (joinSep ['\n'] (Dockerfile.renderParts stages)).getLast? = some '\n'
    · rw [if_pos hr]; exact hr
    · rw [if_neg hr]; exact List.getLast?_concat _
  · intro last hlast hne
    have h1 : (Dockerfile.renderParts stages).getLast? = some last.render :=
      renderParts_getLast? stages last hlast
    have h2 : (joinSep ['\n'] (Dockerfile.renderParts stages)).getLast? =
        last.render.getLast? :=
      getLast?_joinSep _ _ _ h1 (stageRender_ne_nil last)
    have hr : ¬ (joinSep ['\n'] (Dockerfile.renderParts stages)).getLast? = some '\n' := by
      rw [h2]; exact hne
    constructor
    · rw [hdef, if_neg hr]
    · rw [hdef, if_neg hr, List.dropLast_concat, h2]
      exact hne
  · intro last hlast hend
    have h1 : (Dockerfile.renderParts stages).getLast? = some last.render :=
      renderParts_getLast? stages last hlast
    have h2 : (joinSep ['\n'] (Dockerfile.renderParts stages)).getLast? =
        last.render.getLast? :=
      getLast?_joinSep _ _ _ h1 (stageRender_ne_nil last)
    rw [hdef, if_pos (by rw [h2]; exact hend)]

/-- C6: when no stage's own rendering contributes a blank line, the
rendered document of K stages contains exactly K minus 1 blank lines: the
ones inserted between consecutive stages. -/
theorem c6_separating_blank_lines (stages : List Stage) (hne : stages ≠ [])
    (hcl : ∀ st ∈ stages, (splitNL st.render).count ([] : Str) = 0) :
    (linesOf (Dockerfile.render ⟨stages⟩)).count ([] : Str) = stages.length - 1 := by
  have hLne : stages.map Stage.render ≠ [] := by simp [hne]
  have hr : joinSep ['\n'] (Dockerfile.renderParts stages) =
      joinSep ['\n', '\n'] (stages.map Stage.render) := joinSep_renderParts stages
  have hcount := count_nil_splitNL_joinSep2 (stages.map Stage.render) hLne
  have hsum : ((stages.map Stage.render).map
      (fun l => (splitNL l).count ([] : Str))).sum = 0 := by
    apply List.sum_eq_zero
    intro x hx
    obtain ⟨ll, hll, rfl⟩ := List.mem_map.mp hx
    obtain ⟨st, hst, rfl⟩ := List.mem_map.mp hll
    exact hcl st hst
  obtain ⟨last, hlast⟩ : ∃ la, stages.getLast? = some la :=
    ⟨_, List.getLast?_eq_getLast _ hne⟩
  have hmem : last ∈ stages := by
    obtain ⟨ys, rfl⟩ := List.getLast?_eq_some_iff.mp hlast
    simp
  have hnotend : ¬ (joinSep ['\n', '\n'] (stages.map Stage.render)).getLast? =
      some '\n' := by
    have h1 : (stages.map Stage.render).getLast? = some last.render := by
      rw [List.getLast?_map, hlast]; rfl
    rw [getLast?_joinSep _ _ _ h1 (stageRender_ne_nil last)]
    exact (count_zero_not_ends _ (hcl last hmem)).2
  have hdef : Dockerfile.render ⟨stages⟩ =
      joinSep ['\n', '\n'] (stages.map Stage.render) ++ ['\n'] := by
    rw [show Dockerfile.render ⟨stages⟩ =
      (if (joinSep ['\n'] (Dockerfile.renderParts stages)).getLast? = some '\n'
       then joinSep ['\n'] (Dockerfile.renderParts stages)
       else joinSep ['\n'] (Dockerfile.renderParts stages) ++ ['\n']) from rfl]
    rw [hr, if_neg hnotend]
  rw [hdef]
  have hend : (joinSep ['\n', '\n'] (stages.map Stage.render) ++ ['\n']).getLast? =
      some '\n' := List.getLast?_concat _
  rw [linesOf, if_pos hend]
  have hsplit : splitNL (joinSep ['\n', '\n'] (stages.map Stage.render) ++ ['\n']) =
      splitNL (joinSep ['\n', '\n'] (stages.map Stage.render)) ++ [[]] := by
    have h := splitNL_append_nl (joinSep ['\n', '\n'] (stages.map Stage.render)) []
    simpa [splitNL] using h
  rw [hsplit, List.dropLast_concat, hcount, hsum, List.length_map]
  omega

/-- C6 witness: a two-stage document whose stages contribute no blank lines
of their own renders with exactly one blank line. -/
theorem c6_separating_blank_lines_witness :
    (linesOf (Dockerfile.render ⟨[⟨⟨"a", none, none⟩, []⟩,
      ⟨⟨"b", none, none⟩, [.run "r"]⟩]⟩)).count ([] : Str) = 1 := by
  have h := c6_separating_blank_lines
    [⟨⟨"a", none, none⟩, []⟩, ⟨⟨"b", none, none⟩, [.run "r"]⟩]
    (by decide) (by decide)
  simpa using h

theorem wellKnown_lookup (t v ve de u so li re cr : Option String) :
    dlookup (wellKnownLabels t v ve de u so li re cr)
        "org.opencontainers.image.title" = t ∧
    dlookup (wellKnownLabels t v ve de u so li re cr)
        "org.opencontainers.image.version" = v ∧
    dlookup (wellKnownLabels t v ve de u so li re cr)
        "org.opencontainers.image.vendor" = ve ∧
    dlookup (wellKnownLabels t v ve de u so li re cr)
        "org.opencontainers.image.description" = de ∧
    dlookup (wellKnownLabels t v ve de u so li re cr)
        "org.opencontainers.image.url" = u ∧
    dlookup (wellKnownLabels t v ve de u so li re cr)
        "org.opencontainers.image.source" = so ∧
    dlookup (wellKnownLabels t v ve de u so li re cr)
        "org.opencontainers.image.licenses" = li ∧
    dlookup (wellKnownLabels t v ve de u so li re cr)
        "org.opencontainers.image.revision" = re ∧
    dlookup (wellKnownLabels t v ve de u so li re cr)
        "org.opencontainers.image.created" = cr := by
  refine ⟨?_, ?_, ?_, ?_, ?_, ?_, ?_, ?_, ?_⟩ <;>
    simp [wellKnownLabels, dlookup_optIns_ne, dlookup_optIns_self, dlookup]

/-- C7: in oci_labels every key of the extra overlay ends up mapped to the
overlay's value, overriding any colliding well-known entry; keys outside
the overlay keep the well-known mapping, in which a field left as None
contributes no key at all (its lookup is exactly the optional field). -/
theorem c7_oci_overlay_wins (t v ve de u so li re cr : Option String)
    (extra : List (String × String)) (hnd : (extra.map Prod.fst).Nodup) :
    (∀ k vv, (k, vv) ∈ extra →
      dlookup (labelsOf (oci_labels t v ve de u so li re cr (some extra))) k =
        some vv) ∧
    (∀ k, ¬ k ∈ extra.map Prod.fst →
      dlookup (labelsOf (oci_labels t v ve de u so li re cr (some extra))) k =
        dlookup (wellKnownLabels t v ve de u so li re cr) k) ∧
    dlookup (wellKnownLabels t v ve de u so li re cr)
        "org.opencontainers.image.title" = t ∧
    dlookup (wellKnownLabels t v ve de u so li re cr)
        "org.opencontainers.image.created" = cr := by
  by_cases hext : extra = []
  · subst hext
    refine ⟨?_, ?_, (wellKnown_lookup t v ve de u so li re cr).1,
      ?_⟩
    · intro k vv hmem
      simp at hmem
    · intro k _
      rfl
    · exact (wellKnown_lookup t v ve de u so li re cr).2.2.2.2.2.2.2.2
  · have hoci : labelsOf (oci_labels t v ve de u so li re cr (some extra)) =
        dupdate (wellKnownLabels t v ve de u so li re cr) extra := by
      simp [oci_labels, labelsOf, hext]
    refine ⟨?_, ?_, (wellKnown_lookup t v ve de u so li re cr).1, ?_⟩
    · intro k vv hmem
      rw [hoci]
      exact dlookup_dupdate_mem extra _ k vv hnd hmem
    · intro k hk
      rw [hoci]
      exact dlookup_dupdate_notmem extra _ k hk
    · exact (wellKnown_lookup t v ve de u so li re cr).2.2.2.2.2.2.2.2

/-- C7 witness: with a title set to t but overlaid by an extra entry for
the same well-known key, the overlay value wins, an untouched extra key is
present, and leaving version unset contributes no version key. -/
theorem c7_oci_overlay_wins_witness :
    dlookup (labelsOf (oci_labels (some "t") none none none none none none
        none none (some [("org.opencontainers.image.title", "override"),
          ("team", "x")]))) "org.opencontainers.image.title" = some "override" ∧
    dlookup (labelsOf (oci_labels (some "t") none none none none none none
        none none (some [("org.opencontainers.image.title", "override"),
          ("team", "x")]))) "team" = some "x" ∧
    dlookup (wellKnownLabels (some "t") none none none none none none none
        none) "org.opencontainers.image.created" = none := by
  have h := c7_oci_overlay_wins (some "t") none none none none none none none
    none [("org.opencontainers.image.title", "override"), ("team", "x")]
    (by decide)
  exact ⟨h.1 _ _ (by decide), h.1 _ _ (by decide), h.2.2.2⟩

/-- C9 counterexample: a comment set to the empty string is skipped by the
truthiness test, so the output has no comment line (no # at all) even
though a comment is set. -/
theorem c9_empty_comment_counterexample :
    DockerignoreConfig.render ⟨true, [], [], some ""⟩ = str "**" ++ ['\n'] ∧
    (DockerignoreConfig.render ⟨true, [], [], some ""⟩).all (fun ch => !(ch = '#')) = true ∧
    (some "" : Option String).isSome = true := by
  decide

/-- C9 (amended): when the comment and all patterns contain no newline, the
lines of the rendered dockerignore are, in order: the comment line when a
non-empty comment is set, the deny patterns verbatim, a single blanket
line when the ignore-everything flag is set, the allow patterns with a
leading exclamation mark, and one final empty segment, so the output ends
with a trailing newline whenever at least one line was emitted (and is the
empty string in the degenerate all-empty configuration). -/
theorem c9_dockerignore_lines (cfg : DockerignoreConfig)
    (hc : ∀ s ∈ cfg.comment.toList, ∀ ch ∈ s.data, ¬ ch = '\n')
    (hd : ∀ p ∈ cfg.deny_patterns, ∀ ch ∈ p.data, ¬ ch = '\n')
    (ha : ∀ p ∈ cfg.allow_patterns, ∀ ch ∈ p.data, ¬ ch = '\n') :
    splitNL cfg.render =
      ((match cfg.comment with
        | some c => if c = "" then [] else [str "# " ++ c.data]
        | none => []) ++
      cfg.deny_patterns.map String.data ++
      (if cfg.ignore_all then [str "**"] else []) ++
      cfg.allow_patterns.map (fun p => '!' :: p.data)) ++ [[]] := by
  apply splitNL_joinSep_nl
  · simp
  · intro l hl ch hch
    simp only [List.mem_append, List.mem_singleton] at hl
    rcases hl with (((h1 | h2) | h3) | h4) | h5
    · cases hcc : cfg.comment with
      | none => rw [hcc] at h1; simp at h1
      | some c =>
        rw [hcc] at h1
        by_cases hce : c = ""
        · simp [hce] at h1
        · simp only [hce, if_false, List.mem_singleton] at h1
          subst h1
          rcases List.mem_append.mp hch with hpre | hin
          · have h2 : ch = '#' ∨ ch = ' ' := by simpa [str] using hpre
            rcases h2 with rfl | rfl <;> decide
          · exact hc c (by simp [hcc]) ch hin
    · obtain ⟨p, hp, rfl⟩ := List.mem_map.mp h2
      exact hd p hp ch hch
    · by_cases hig : cfg.ignore_all = true
      · rw [if_pos hig] at h3
        simp only [List.mem_singleton] at h3
        subst h3
        have h4 : ch = '*' := by simpa [str] using hch
        subst h4
        decide
      · simp [hig] at h3
    · obtain ⟨p, hp, rfl⟩ := List.mem_map.mp h4
      rcases List.mem_cons.mp hch with rfl | hin
      · decide
      · exact ha p hp ch hin
    · subst h5
      simp at hch

/-- C9 witness: a configuration with a comment, one deny pattern, the
blanket ignore and two allow patterns splits into exactly the claimed
lines in order, with the trailing empty segment. -/
theorem c9_dockerignore_lines_witness :
    splitNL (DockerignoreConfig.render
        ⟨true, ["*.sls.tgz", "hooks/"], ["secret"], some "hi"⟩) =
      [str "# hi", str "secret", str "**", '!' :: "*.sls.tgz".data,
        '!' :: "hooks/".data, []] := by
  have h := c9_dockerignore_lines ⟨true, ["*.sls.tgz", "hooks/"], ["secret"], some "hi"⟩
    (by decide) (by decide) (by decide)
  simpa using h

theorem filterMap_dirOf_expose (ports : List Int) :
    (ports.map (fun p => BuilderOp.expose p none)).filterMap dirOf =
      ports.map (fun p => Directive.expose p none) := by
  induction ports with
  | nil => rfl
  | cons p t ih => simp [List.filterMap_cons, dirOf, ih]

theorem filterMap_dirOf_expose_comp (ports : List Int) :
    List.filterMap (dirOf ∘ fun p => BuilderOp.expose p none) ports =
      ports.map (fun p => Directive.expose p none) := by
  induction ports with
  | nil => rfl
  | cons p t ih => simp [List.filterMap_cons, dirOf, Function.comp, ih]

theorem filter_expose_nil (q : Directive → Bool)
    (hq : ∀ p : Int, q (Directive.expose p none) = false) (ports : List Int) :
    (ports.map (fun p => Directive.expose p none)).filter q = [] := by
  induction ports with
  | nil => rfl
  | cons p t ih => simp [List.filter_cons, hq, ih]

/-- C1 counterexample: configuring only the retries parameter (non-None)
emits no HEALTHCHECK at all, refuting that any of the four health-check
parameters triggers the instruction. -/
theorem c1_retries_only_counterexample :
    (some (5 : Int)).isSome = true ∧
    (slsDirs "n" "v" "g" "d" "t" "/opt/services" "helm.v1" none none none
      (some 5) false [] none).filter isHealthCheckDir = [] := by
  constructor
  · rfl
  · rfl

/-- C1 (amended): the SLS preset emits a HEALTHCHECK directive, immediately
followed by a blank line, exactly when the interval or the timeout
parameter is configured (non-None); configuring only start-period or
retries does not trigger it. When emitted, each unset parameter falls back
to interval 10s, timeout 5s, start-period 30s, retries 3 (a configured zero
also falls back, through Python or). -/
theorem c1_healthcheck_iff_interval_or_timeout (pn pv pg dn tn ip pt : String)
    (hcI hcT hcS hcR : Option Int) (hook : Bool) (ports : List Int)
    (labels : Option (List (String × String))) :
    (slsDirs pn pv pg dn tn ip pt hcI hcT hcS hcR hook ports labels).filter
        isHealthCheckDir =
      (if hcI.isSome || hcT.isSome then
        [.healthCheck "service/monitoring/bin/check.sh || exit 1"
          (orInt hcI 10) (orInt hcT 5) (orInt hcS 30) (orInt hcR 3)]
       else []) ∧
    ((hcI.isSome || hcT.isSome) = true →
      ∃ a b, slsDirs pn pv pg dn tn ip pt hcI hcT hcS hcR hook ports labels =
        a ++ [.healthCheck "service/monitoring/bin/check.sh || exit 1"
          (orInt hcI 10) (orInt hcT 5) (orInt hcS 30) (orInt hcR 3),
          .blankLine] ++ b) := by
  constructor
  · cases hook <;>
      by_cases hcond : (hcI.isSome || hcT.isSome) = true <;>
        by_cases hports : ports = [] <;>
          simp [slsDirs, slsBody, hcond, hports, List.filterMap_append,
            List.filterMap_cons, dirOf, filterMap_dirOf_expose,
            List.filter_append, List.filter_cons, isHealthCheckDir,
            filterMap_dirOf_expose_comp,
            filter_expose_nil isHealthCheckDir (fun _ => rfl)]
  · intro hcond
    refine ⟨[.blankLine, .label (slsLabels pn pv pg pt labels), .blankLine,
        .add tn (ip ++ "/") none, .workdir (ip ++ "/" ++ dn), .blankLine,
        .run "mkdir -p var/data/tmp var/log var/run var/conf var/state",
        .blankLine] ++
      (if hook then
        [.comment "Hook init system",
         .copy "hooks/entrypoint.sh" "service/bin/entrypoint.sh" none none,
         .copy "hooks/hooks.sh" "service/lib/hooks.sh" none none,
         .run hookRunCmd, .blankLine]
       else []) ++
      ports.map (fun p => Directive.expose p none) ++
      (if ports = [] then [] else [.blankLine]),
      [(if hook then Directive.entrypoint ["service/bin/entrypoint.sh"]
        else Directive.entrypoint ["service/bin/init.sh", "start"]),
       .blankLine], ?_⟩
    cases hook <;>
      by_cases hports : ports = [] <;>
        simp [slsDirs, slsBody, hcond, hports, List.filterMap_append,
          List.filterMap_cons, dirOf, filterMap_dirOf_expose,
          filterMap_dirOf_expose_comp]

/-- C8: with hook-mode disabled the SLS preset's only ENTRYPOINT directive
is the init.sh start form and no COPY directive is emitted at all; with
hook-mode enabled the only ENTRYPOINT is the entrypoint.sh form (so the
init.sh entrypoint is absent) and exactly the two hook COPY lines appear,
in order. -/
theorem c8_hook_mode_entrypoint (pn pv pg dn tn ip pt : String)
    (hcI hcT hcS hcR : Option Int) (hook : Bool) (ports : List Int)
    (labels : Option (List (String × String))) :
    (hook = false →
      (slsDirs pn pv pg dn tn ip pt hcI hcT hcS hcR hook ports labels).filter
          isEntrypointDir = [.entrypoint ["service/bin/init.sh", "start"]] ∧
      (slsDirs pn pv pg dn tn ip pt hcI hcT hcS hcR hook ports labels).filter
          isCopyDir = []) ∧
    (hook = true →
      (slsDirs pn pv pg dn tn ip pt hcI hcT hcS hcR hook ports labels).filter
          isEntrypointDir = [.entrypoint ["service/bin/entrypoint.sh"]] ∧
      (slsDirs pn pv pg dn tn ip pt hcI hcT hcS hcR hook ports labels).filter
          isCopyDir =
        [.copy "hooks/entrypoint.sh" "service/bin/entrypoint.sh" none none,
         .copy "hooks/hooks.sh" "service/lib/hooks.sh" none none]) := by
  constructor <;>
    rintro rfl <;>
      constructor <;>
        by_cases hcond : (hcI.isSome || hcT.isSome) = true <;>
          by_cases hports : ports = [] <;>
            simp [slsDirs, slsBody, hcond, hports, List.filterMap_append,
              List.filterMap_cons, dirOf, filterMap_dirOf_expose_comp,
              List.filter_append, List.filter_cons, isEntrypointDir, isCopyDir,
              filter_expose_nil isEntrypointDir (fun _ => rfl),
              filter_expose_nil isCopyDir (fun _ => rfl)]

/-- C8 witness: at a concrete parameter set, hook-mode off yields the
init.sh entrypoint and no COPY, and hook-mode on yields the entrypoint.sh
entrypoint together with both hook COPY directives. -/
theorem c8_hook_mode_entrypoint_witness :
    (slsDirs "n" "v" "g" "d" "t" "/opt/services" "helm.v1" none none none
        none false [] none).filter isEntrypointDir =
      [.entrypoint ["service/bin/init.sh", "start"]] ∧
    (slsDirs "n" "v" "g" "d" "t" "/opt/services" "helm.v1" none none none
        none true [] none).filter isCopyDir =
      [.copy "hooks/entrypoint.sh" "service/bin/entrypoint.sh" none none,
       .copy "hooks/hooks.sh" "service/lib/hooks.sh" none none] := by
  exact ⟨((c8_hook_mode_entrypoint "n" "v" "g" "d" "t" "/opt/services"
      "helm.v1" none none none none false [] none).1 rfl).1,
    ((c8_hook_mode_entrypoint "n" "v" "g" "d" "t" "/opt/services"
      "helm.v1" none none none none true [] none).2 rfl).2⟩

/-- C10: directives appended before any from_ call stay in the pending
buffer (the flush inside the first from_ has no pending FROM and clears
nothing), and end up at the front of the first stage of the built document,
ahead of the directives appended after the from_ call. -/
theorem c10_pre_from_directives_kept (pre post : List BuilderOp) (i : String)
    (a p : Option String)
    (h1 : pre.all (fun o => !isFromOp o) = true)
    (h2 : post.all (fun o => !isFromOp o) = true) :
    applyOps initState pre = ⟨[], none, pre.filterMap dirOf⟩ ∧
    build (applyOps initState (pre ++ .from_ i a p :: post)) =
      .ok ⟨[⟨⟨i, a, p⟩, pre.filterMap dirOf ++ post.filterMap dirOf⟩]⟩ := by
  have hpre : applyOps initState pre = ⟨[], none, pre.filterMap dirOf⟩ := by
    rw [applyOps_nonFrom pre h1 initState]
    rfl
  refine ⟨hpre, ?_⟩
  rw [applyOps_append, hpre]
  show build (applyOps (applyOp ⟨[], none, pre.filterMap dirOf⟩ (.from_ i a p)) post) = _
  have hfrom : applyOp ⟨[], none, pre.filterMap dirOf⟩ (.from_ i a p) =
      ⟨[], some ⟨i, a, p⟩, pre.filterMap dirOf⟩ := rfl
  rw [hfrom, applyOps_nonFrom post h2]
  simp [build, flushStage]

/-- C10 witness: a run directive issued before the first from_ call
survives into the single built stage, ahead of the directive issued after
the from_ call. -/
theorem c10_pre_from_directives_kept_witness :
    build (applyOps initState
        ([.run "early"] ++ .from_ "img" none none :: [.workdir "/app"])) =
      .ok ⟨[⟨⟨"img", none, none⟩, [.run "early", .workdir "/app"]⟩]⟩ := by
  have h := c10_pre_from_directives_kept [.run "early"] [.workdir "/app"]
    "img" none none (by decide) (by decide)
  simpa using h.2

/-- C1 witness: with only the interval configured (15), the preset emits a
HEALTHCHECK with the remaining parameters at their 5s/30s/3 defaults,
immediately followed by a blank line. -/
theorem c1_healthcheck_iff_interval_or_timeout_witness :
    ∃ a b, slsDirs "n" "v" "g" "d" "t" "/opt/services" "helm.v1" (some 15)
        none none none false [] none =
      a ++ [.healthCheck "service/monitoring/bin/check.sh || exit 1"
        15 5 30 3, .blankLine] ++ b := by
  have h := (c1_healthcheck_iff_interval_or_timeout "n" "v" "g" "d" "t"
    "/opt/services" "helm.v1" (some 15) none none none false [] none).2 rfl
  simpa [orInt] using h
